import Mathlib

/-!
Verification development for the NIDAQ acquisition plugin
(`Source/NIDAQThread.cpp`).

The module `NIDAQThread` is a thin adapter between a host recording
application and a vendor hardware driver.  Its state and operations are
embedded shallowly below.  The classes `NIDAQmxDeviceManager` and
`NIDAQmx` live in a repository file that is not available here (only
`NIDAQThread.cpp` is); the parts of their behaviour that the theorems
need are modelled from the specification and are marked as such in their
doc comments.  Everything else is a direct translation of
`NIDAQThread.cpp`.

Voltages and sample rates are modelled as rationals (the C++ code uses
`float`; the claims under study are about which table entry is selected
and which formula is applied, not about rounding).
-/

set_option autoImplicit false

namespace NIDAQ

/-- A voltage range, a pair of minimum/maximum bounds
(C++ struct with fields `vmin`, `vmax`). -/
structure VRange where
  vmin : Rat
  vmax : Rat
deriving DecidableEq, Repr

/-- Description of one physical (or simulated) device as reported by the
vendor driver: its enumeration name (e.g. "Dev1"), its product name
(e.g. "PCIe-6343"), its analog/digital input counts and its reported
sample-rate and voltage-range tables. -/
structure DeviceSpec where
  devName : String
  productName : String
  numAI : Nat
  numDI : Nat
  sampleRates : List Rat
  aiVRanges : List VRange
deriving DecidableEq, Repr

/-- Fallback device spec used when a lookup fails (never reached from
states built by the constructor, whose device list is nonempty). -/
def defaultDevice : DeviceSpec :=
  { devName := "", productName := "", numAI := 0, numDI := 0,
    sampleRates := [], aiVRanges := [] }

/-- Modelled from the spec: the software-only stand-in device that the
device manager enumerates when no hardware is found ("Simulated device:
a software-only stand-in"; "No device found: feature flagged
unavailable").  Its reported tables are nonempty, like a real device's. -/
def simulatedDevice : DeviceSpec :=
  { devName := "SimulatedDevice", productName := "SimulatedDevice",
    numAI := 1, numDI := 1,
    sampleRates := [1000], aiVRanges := [⟨-10, 10⟩] }

/-- Modelled from the spec: `NIDAQmxDeviceManager` (its source file is
not under `src/`).  It holds the list of enumerated devices. -/
structure NIDAQmxDeviceManager where
  devices : List DeviceSpec
deriving DecidableEq, Repr

/-- Modelled from the spec: `NIDAQmxDeviceManager::scanForDevices` (not
under `src/`).  It enumerates the available hardware; when none is found
it reports the simulated stand-in, so that "no device found" coincides
with "the first enumerated device is the simulated device" as the spec's
error-handling section and the constructor's check in `NIDAQThread.cpp`
line 51 assume. -/
def scanForDevices (hw : List DeviceSpec) : NIDAQmxDeviceManager :=
  if hw.isEmpty then ⟨[simulatedDevice]⟩ else ⟨hw⟩

/-- `NIDAQmxDeviceManager::getDeviceFromIndex`: the enumeration name of
the device at an index (modelled from the spec; out-of-range yields the
empty string). -/
def getDeviceFromIndex (dm : NIDAQmxDeviceManager) (i : Nat) : String :=
  match dm.devices[i]? with
  | some d => d.devName
  | none => ""

/-- `NIDAQmxDeviceManager::getDeviceFromProductName` (modelled from the
spec): the enumeration name of the first known device with the given
product name, or the empty string when the product name is unknown. -/
def getDeviceFromProductName (dm : NIDAQmxDeviceManager) (p : String) : String :=
  match dm.devices.find? (fun d => d.productName == p) with
  | some d => d.devName
  | none => ""

/-- Look a device up by its enumeration name (used to model the
`NIDAQmx` constructor, which receives a device name). -/
def findDevice (devs : List DeviceSpec) (name : String) : DeviceSpec :=
  match devs.find? (fun d => d.devName == name) with
  | some d => d
  | none => defaultDevice

/-- One open `NIDAQmx` device session.  Fields mirror the C++ members
used by `NIDAQThread.cpp`: `productName`, `ai.size()`/`di.size()` (only
the sizes are read, kept as counts), the per-channel enabled flags, the
reported tables, the active `samplerate`/`voltageRange`, the `aiBuffer`
pointer (modelled as the id of the buffer it points to) and the
`juce::Thread` running/should-exit flags. -/
structure NIDAQmx where
  productName : String
  ai : Nat
  di : Nat
  aiChannelEnabled : List Bool
  diChannelEnabled : List Bool
  sampleRates : List Rat
  aiVRanges : List VRange
  voltageRange : VRange
  samplerate : Rat
  aiBuffer : Option Nat
  threadRunning : Bool
  threadShouldExit : Bool
deriving DecidableEq, Repr

/-- Modelled from the spec: the `NIDAQmx` constructor (not under
`src/`).  It opens a session on the named device and fills in the
device-reported channel lists and tables ("device-session component
(opens one hardware handle, exposes channel counts, sample-rate and
voltage-range tables, and a start/stop acquisition thread)"); one
enabled flag per input line.  The active rate/range are set afterwards
by the caller (`openConnection` / `swapConnection`). -/
def NIDAQmx.create (devs : List DeviceSpec) (name : String) : NIDAQmx :=
  let d := findDevice devs name
  { productName := d.productName
    ai := d.numAI
    di := d.numDI
    aiChannelEnabled := List.replicate d.numAI true
    diChannelEnabled := List.replicate d.numDI true
    sampleRates := d.sampleRates
    aiVRanges := d.aiVRanges
    voltageRange := ⟨0, 0⟩
    samplerate := 0
    aiBuffer := none
    threadRunning := false
    threadShouldExit := false }

/-- `juce::Array::operator[]` with a C++ `int` index: the element when
the index is in range, a default-constructed value otherwise. -/
def juceGet {α : Type} (xs : List α) (i : Int) (dflt : α) : α :=
  if h : 0 ≤ i ∧ i.toNat < xs.length then xs.get ⟨i.toNat, h.2⟩ else dflt

/-- `juce::Array::set` with a C++ `int` index: replaces the element when
the index is in range, appends when the index is past the end, and does
nothing for a negative index (which the library asserts against). -/
def juceSet {α : Type} (xs : List α) (i : Int) (v : α) : List α :=
  if 0 ≤ i then
    if i.toNat < xs.length then xs.set i.toNat v else xs ++ [v]
  else xs

/-- One entry of the host's `DataBuffer` pool (`sourceBuffers`): the
channel count and sample depth it was constructed with, plus an identity
tag so that "a new buffer" is expressible. -/
structure DataBuffer where
  numChannels : Nat
  bufferSize : Nat
  id : Nat
deriving DecidableEq, Repr

/-- The state of a `NIDAQThread` object: the device manager `dm`, the
open session `mNIDAQ`, the `sourceBuffers` pool, the selected
`sampleRateIndex` / `voltageRangeIndex` (C++ `int`), the
`inputAvailable` flag and the size of the `sourceStreams` array.
`nextBufferId` is the bookkeeping counter handing out fresh buffer
identities. -/
structure NIDAQThreadState where
  dm : NIDAQmxDeviceManager
  mNIDAQ : NIDAQmx
  sourceBuffers : List DataBuffer
  nextBufferId : Nat
  sampleRateIndex : Int
  voltageRangeIndex : Int
  inputAvailable : Bool
  sourceStreamsSize : Nat
deriving DecidableEq, Repr

/-- `NIDAQThread::getNumAnalogInputs`: `mNIDAQ->ai.size()`. -/
def getNumAnalogInputs (s : NIDAQThreadState) : Nat :=
  s.mNIDAQ.ai

/-- `NIDAQThread::getNumDigitalInputs`: `mNIDAQ->di.size()`. -/
def getNumDigitalInputs (s : NIDAQThreadState) : Nat :=
  s.mNIDAQ.di

/-- `NIDAQThread::getProductName`: `mNIDAQ->productName`. -/
def getProductName (s : NIDAQThreadState) : String :=
  s.mNIDAQ.productName

/-- `NIDAQThread::setSampleRate` (lines 275-279): stores the index and
copies the table entry into the session's active `samplerate`.  No
bounds check is performed. -/
def setSampleRate (s : NIDAQThreadState) (rateIndex : Int) : NIDAQThreadState :=
  { s with
    sampleRateIndex := rateIndex
    mNIDAQ := { s.mNIDAQ with
      samplerate := juceGet s.mNIDAQ.sampleRates rateIndex 0 } }

/-- `NIDAQThread::setVoltageRange` (lines 269-273): stores the index and
copies the table entry into the session's active `voltageRange`.  No
bounds check is performed. -/
def setVoltageRange (s : NIDAQThreadState) (rangeIndex : Int) : NIDAQThreadState :=
  { s with
    voltageRangeIndex := rangeIndex
    mNIDAQ := { s.mNIDAQ with
      voltageRange := juceGet s.mNIDAQ.aiVRanges rangeIndex ⟨0, 0⟩ } }

/-- The device spec that `openConnection` opens: the one whose name the
device manager reports at index 0. -/
def openedSpec (s : NIDAQThreadState) : DeviceSpec :=
  findDevice s.dm.devices (getDeviceFromIndex s.dm 0)

/-- `NIDAQThread::openConnection` (lines 162-179): create a session on
the device at enumeration index 0, append a `DataBuffer(numAnalogInputs,
10000)` to `sourceBuffers`, point the session's `aiBuffer` at it, then
default the sample-rate and voltage-range indices to the last entries of
the session's tables.  Returns 0. -/
def openConnection (s : NIDAQThreadState) : NIDAQThreadState × Int :=
  let m := NIDAQmx.create s.dm.devices (getDeviceFromIndex s.dm 0)
  let buf : DataBuffer := ⟨m.ai, 10000, s.nextBufferId⟩
  let s1 : NIDAQThreadState :=
    { s with
      mNIDAQ := { m with aiBuffer := some buf.id }
      sourceBuffers := s.sourceBuffers ++ [buf]
      nextBufferId := s.nextBufferId + 1 }
  let s2 := setSampleRate s1 ((m.sampleRates.length : Int) - 1)
  let s3 := setVoltageRange s2 ((m.aiVRanges.length : Int) - 1)
  (s3, 0)

/-- `NIDAQThread::swapConnection` (lines 212-233): when the product name
is known to the device manager, recreate the session on that device,
replace the last buffer by a fresh `DataBuffer(numAnalogInputs, 10000)`,
re-apply the default rate/range indices and return 0; otherwise do
nothing and return 1. -/
def swapConnection (s : NIDAQThreadState) (productName : String) :
    NIDAQThreadState × Int :=
  if getDeviceFromProductName s.dm productName ≠ "" then
    let m := NIDAQmx.create s.dm.devices (getDeviceFromProductName s.dm productName)
    let buf : DataBuffer := ⟨m.ai, 10000, s.nextBufferId⟩
    let s1 : NIDAQThreadState :=
      { s with
        mNIDAQ := { m with aiBuffer := some buf.id }
        sourceBuffers := s.sourceBuffers.dropLast ++ [buf]
        nextBufferId := s.nextBufferId + 1 }
    let s2 := setSampleRate s1 ((m.sampleRates.length : Int) - 1)
    let s3 := setVoltageRange s2 ((m.aiVRanges.length : Int) - 1)
    (s3, 0)
  else
    (s, 1)

/-- The device spec that a successful `swapConnection` opens: the known
device with the requested product name. -/
def swappedSpec (s : NIDAQThreadState) (productName : String) : DeviceSpec :=
  findDevice s.dm.devices (getDeviceFromProductName s.dm productName)

/-- `NIDAQThread::toggleAIChannel` (lines 259-262):
`aiChannelEnabled.set(index, !aiChannelEnabled[index])`. -/
def toggleAIChannel (s : NIDAQThreadState) (index : Int) : NIDAQThreadState :=
  { s with
    mNIDAQ := { s.mNIDAQ with
      aiChannelEnabled :=
        juceSet s.mNIDAQ.aiChannelEnabled index
          (! juceGet s.mNIDAQ.aiChannelEnabled index false) } }

/-- `NIDAQThread::toggleDIChannel` (lines 264-267):
`diChannelEnabled.set(index, !diChannelEnabled[index])`. -/
def toggleDIChannel (s : NIDAQThreadState) (index : Int) : NIDAQThreadState :=
  { s with
    mNIDAQ := { s.mNIDAQ with
      diChannelEnabled :=
        juceSet s.mNIDAQ.diChannelEnabled index
          (! juceGet s.mNIDAQ.diChannelEnabled index false) } }

/-- `NIDAQThread::foundInputSource` (lines 316-319). -/
def foundInputSource (s : NIDAQThreadState) : Bool :=
  s.inputAvailable

/-- The state assembled by the `NIDAQThread` constructor (lines 44-56)
just before its call to `openConnection`: scan for devices, and set
`inputAvailable` exactly when at least one device was enumerated and the
device at index 0 is not named "SimulatedDevice".  The session field is
a placeholder (C++ `mNIDAQ` is still null here); `openConnection`
replaces it wholesale. -/
def initialState (hw : List DeviceSpec) : NIDAQThreadState :=
  let dm := scanForDevices hw
  { dm := dm
    mNIDAQ := NIDAQmx.create [] ""
    sourceBuffers := []
    nextBufferId := 0
    sampleRateIndex := 0
    voltageRangeIndex := 0
    inputAvailable :=
      decide (0 < dm.devices.length) &&
        (getDeviceFromIndex dm 0 != "SimulatedDevice")
    sourceStreamsSize := 0 }

/-- The `NIDAQThread` constructor (lines 44-56): build the initial state
and call `openConnection`. -/
def NIDAQThreadCreate (hw : List DeviceSpec) : NIDAQThreadState × Int :=
  openConnection (initialState hw)

/-- `juce::Thread::startThread`, as used by `startAcquisition`: a no-op
when the thread is already running, otherwise the thread starts (the
should-exit flag is reset on launch). -/
def startThread (m : NIDAQmx) : NIDAQmx :=
  if m.threadRunning then m
  else { m with threadRunning := true, threadShouldExit := false }

/-- `NIDAQThread::startAcquisition` (lines 335-341):
`mNIDAQ->startThread(); return true;`. -/
def startAcquisition (s : NIDAQThreadState) : NIDAQThreadState × Bool :=
  ({ s with mNIDAQ := startThread s.mNIDAQ }, true)

/-- `NIDAQThread::stopAcquisition` (lines 344-352): when the sampling
thread is running, signal it to exit; always return true. -/
def stopAcquisition (s : NIDAQThreadState) : NIDAQThreadState × Bool :=
  (if s.mNIDAQ.threadRunning then
    { s with mNIDAQ := { s.mNIDAQ with threadShouldExit := true } }
  else s, true)

/-- One continuous-channel descriptor produced by `updateSettings`
(name and bitVolts scale; the other `ContinuousChannel::Settings` fields
are constants not under study). -/
structure ContinuousChannelDesc where
  chName : String
  bitVolts : Rat
deriving DecidableEq, Repr

/-- The event-channel descriptor produced by `updateSettings` (name and
number of digital lines it aggregates). -/
structure EventChannelDesc where
  chName : String
  numLines : Nat
deriving DecidableEq, Repr

/-- `NIDAQThread::updateSettings` (lines 81-160): ensure one source
stream exists, clear the host's collections, and rebuild them: for each
stream, one continuous channel per entry of `aiChannelEnabled` with
`bitVolts = voltageRange.vmax / 0x7fff`, and one event channel whose
line count is `diChannelEnabled.size()`.  Returns the new state together
with the rebuilt continuous- and event-channel collections. -/
def updateSettings (s : NIDAQThreadState) :
    NIDAQThreadState × (List ContinuousChannelDesc × List EventChannelDesc) :=
  let n := if s.sourceStreamsSize = 0 then 1 else s.sourceStreamsSize
  let contOne : List ContinuousChannelDesc :=
    (List.range s.mNIDAQ.aiChannelEnabled.length).map
      (fun ch =>
        ⟨"AI" ++ toString ch, s.mNIDAQ.voltageRange.vmax / 32767⟩)
  let evtOne : EventChannelDesc :=
    ⟨s.mNIDAQ.productName ++ "Digital Input Line",
      s.mNIDAQ.diChannelEnabled.length⟩
  ({ s with sourceStreamsSize := n },
    ((List.replicate n contOne).flatten, List.replicate n evtOne))

/-- The index invariant of the spec: `sampleRateIndex` is a valid index
into the active session's reported sample-rate table and
`voltageRangeIndex` a valid index into its reported voltage-range
table. -/
def ValidIdx (s : NIDAQThreadState) : Prop :=
  0 ≤ s.sampleRateIndex ∧
  s.sampleRateIndex.toNat < s.mNIDAQ.sampleRates.length ∧
  0 ≤ s.voltageRangeIndex ∧
  s.voltageRangeIndex.toNat < s.mNIDAQ.aiVRanges.length

/-- Well-formed device manager contents: at least one enumerated device,
and every enumerated device reports nonempty sample-rate and
voltage-range tables (as real hardware and the simulated stand-in do). -/
def WFDevices (s : NIDAQThreadState) : Prop :=
  s.dm.devices ≠ [] ∧
  ∀ d ∈ s.dm.devices, d.sampleRates ≠ [] ∧ d.aiVRanges ≠ []

/-- One module operation, as in the claim about index validity:
re-opening, swapping (to any product name, known or not), setting the
sample rate or voltage range with an in-range index, toggling a channel,
rebuilding the settings, starting or stopping acquisition. -/
inductive OpStep : NIDAQThreadState → NIDAQThreadState → Prop where
  | openConn (s : NIDAQThreadState) : OpStep s (openConnection s).1
  | swap (s : NIDAQThreadState) (p : String) : OpStep s (swapConnection s p).1
  | setSR (s : NIDAQThreadState) (i : Int) (h0 : 0 ≤ i)
      (h1 : i.toNat < s.mNIDAQ.sampleRates.length) :
      OpStep s (setSampleRate s i)
  | setVR (s : NIDAQThreadState) (i : Int) (h0 : 0 ≤ i)
      (h1 : i.toNat < s.mNIDAQ.aiVRanges.length) :
      OpStep s (setVoltageRange s i)
  | togAI (s : NIDAQThreadState) (i : Int) : OpStep s (toggleAIChannel s i)
  | togDI (s : NIDAQThreadState) (i : Int) : OpStep s (toggleDIChannel s i)
  | settings (s : NIDAQThreadState) : OpStep s (updateSettings s).1
  | start (s : NIDAQThreadState) : OpStep s (startAcquisition s).1
  | stop (s : NIDAQThreadState) : OpStep s (stopAcquisition s).1

/-- Everything in the module state apart from the per-channel enabled
flags: the frame that a channel toggle must leave untouched — the other
channel family, the selected rate/range indices, the active voltage
range and sample rate, the open device session's identity, tables,
buffer pointer and thread flags, the device manager and the buffer
pool. -/
def ConfigUnchanged (s t : NIDAQThreadState) : Prop :=
  t.sampleRateIndex = s.sampleRateIndex ∧
  t.voltageRangeIndex = s.voltageRangeIndex ∧
  t.mNIDAQ.voltageRange = s.mNIDAQ.voltageRange ∧
  t.mNIDAQ.samplerate = s.mNIDAQ.samplerate ∧
  t.mNIDAQ.productName = s.mNIDAQ.productName ∧
  t.mNIDAQ.ai = s.mNIDAQ.ai ∧
  t.mNIDAQ.di = s.mNIDAQ.di ∧
  t.mNIDAQ.sampleRates = s.mNIDAQ.sampleRates ∧
  t.mNIDAQ.aiVRanges = s.mNIDAQ.aiVRanges ∧
  t.mNIDAQ.aiBuffer = s.mNIDAQ.aiBuffer ∧
  t.mNIDAQ.threadRunning = s.mNIDAQ.threadRunning ∧
  t.dm = s.dm ∧
  t.sourceBuffers = s.sourceBuffers

/-- A concrete hardware description used to instantiate theorems: a
PCIe-6343-style device with two analog inputs, three digital inputs and
two-entry rate/range tables. -/
def devA : DeviceSpec :=
  { devName := "Dev1", productName := "PCIe-6343", numAI := 2, numDI := 3,
    sampleRates := [1000, 2000], aiVRanges := [⟨-5, 5⟩, ⟨-10, 10⟩] }

/-- The module state right after construction against the hardware
description `devA`. -/
def stA : NIDAQThreadState := (NIDAQThreadCreate [devA]).1

/-- `stA` with the sampling thread started. -/
def stARunning : NIDAQThreadState := (startAcquisition stA).1

/-- C10: `startAcquisition` and `stopAcquisition` return `true` on every
call, in every state — including when no input device was found — so
their boolean results carry no failure information. -/
theorem C10_acquisition_always_true (s : NIDAQThreadState) :
    (startAcquisition s).2 = true ∧ (stopAcquisition s).2 = true :=
  ⟨rfl, rfl⟩

/-- C7: start/stop are idempotent with respect to the thread-running
flag: starting when the sampling thread already runs, or stopping when
it does not run, leaves the whole state unchanged; stopping raises the
should-exit signal exactly when the thread is running. -/
theorem C7_start_stop_idempotent (s : NIDAQThreadState) :
    (s.mNIDAQ.threadRunning = true → (startAcquisition s).1 = s) ∧
    (s.mNIDAQ.threadRunning = false → (stopAcquisition s).1 = s) ∧
    ((stopAcquisition s).1.mNIDAQ.threadShouldExit =
      (s.mNIDAQ.threadRunning || s.mNIDAQ.threadShouldExit)) := by
  refine ⟨fun h => ?_, fun h => ?_, ?_⟩
  · simp [startAcquisition, startThread, h]
  · simp [stopAcquisition, h]
  · cases h : s.mNIDAQ.threadRunning <;> simp [stopAcquisition, h]

/-- Witness for C7: on the concrete running state `stARunning`, starting
again changes nothing, and on the freshly constructed (stopped) state
`stA`, stopping changes nothing. -/
theorem C7_witness :
    (startAcquisition stARunning).1 = stARunning ∧
    (stopAcquisition stA).1 = stA :=
  ⟨(C7_start_stop_idempotent stARunning).1 (by decide),
   (C7_start_stop_idempotent stA).2.1 (by decide)⟩

/-- C8: when the device manager enumerates no devices, or the first
enumerated device is the simulated stand-in, the constructed module
reports no input source. -/
theorem C8_no_input_source (hw : List DeviceSpec)
    (h : (scanForDevices hw).devices = [] ∨
      getDeviceFromIndex (scanForDevices hw) 0 = "SimulatedDevice") :
    foundInputSource (NIDAQThreadCreate hw).1 = false := by
  have hopen : foundInputSource (NIDAQThreadCreate hw).1 =
      (initialState hw).inputAvailable := rfl
  rw [hopen]
  rcases h with h | h
  · simp [initialState, h]
  · simp [initialState, h]

/-- Witness for C8: with no hardware attached the scan reports only the
simulated stand-in, and the module finds no input source. -/
theorem C8_witness : foundInputSource (NIDAQThreadCreate []).1 = false :=
  C8_no_input_source [] (Or.inr (by decide))

theorem getDeviceFromProductName_eq_empty
    (dm : NIDAQmxDeviceManager) (p : String)
    (h : ∀ d ∈ dm.devices, d.productName ≠ p) :
    getDeviceFromProductName dm p = "" := by
  unfold getDeviceFromProductName
  have : dm.devices.find? (fun d => d.productName == p) = none :=
    List.find?_eq_none.mpr (by simpa using h)
  rw [this]

theorem getDeviceFromProductName_known
    (dm : NIDAQmxDeviceManager) (p : String)
    (hname : ∀ d ∈ dm.devices, d.devName ≠ "")
    (h : ∃ d ∈ dm.devices, d.productName = p) :
    getDeviceFromProductName dm p ≠ "" := by
  unfold getDeviceFromProductName
  have hsome : (dm.devices.find? (fun d => d.productName == p)).isSome :=
    List.find?_isSome.mpr (by simpa using h)
  obtain ⟨d0, hd0⟩ := Option.isSome_iff_exists.mp hsome
  rw [hd0]
  exact hname d0 (List.mem_of_find?_eq_some hd0)

/-- C2: swapping to a product name not among the device manager's known
devices returns 1 and leaves the whole module state unchanged (same open
session, same buffers, same rate/range indices); swapping to a known
product name returns 0.  The devices' enumeration names are nonempty, as
reported by the real driver. -/
theorem C2_swap_unknown_noop (s : NIDAQThreadState) (p : String)
    (hname : ∀ d ∈ s.dm.devices, d.devName ≠ "") :
    ((∀ d ∈ s.dm.devices, d.productName ≠ p) → swapConnection s p = (s, 1)) ∧
    ((∃ d ∈ s.dm.devices, d.productName = p) → (swapConnection s p).2 = 0) := by
  constructor
  · intro hunk
    have hempty := getDeviceFromProductName_eq_empty s.dm p hunk
    unfold swapConnection
    rw [if_neg (by simp [hempty])]
  · intro hknown
    have hne := getDeviceFromProductName_known s.dm p hname hknown
    unfold swapConnection
    rw [if_pos hne]

/-- Witness for C2: on the concrete state `stA` (one known device with
product name "PCIe-6343"), swapping to the unknown name "XX" is a no-op
returning 1, and swapping to "PCIe-6343" returns 0. -/
theorem C2_witness :
    swapConnection stA "XX" = (stA, 1) ∧
    (swapConnection stA "PCIe-6343").2 = 0 :=
  ⟨(C2_swap_unknown_noop stA "XX" (by decide)).1 (by decide),
   (C2_swap_unknown_noop stA "PCIe-6343" (by decide)).2 (by decide)⟩

/-- C3: when at least one device is enumerated and none of the attached
hardware is the simulated stand-in, the device the constructor opens is
the first enumerated one — which is non-simulated; in particular a
device named "SimulatedDevice" is never the one opened when any
non-simulated device is enumerated. -/
theorem C3_opens_first_nonsimulated (hw : List DeviceSpec) (hne : hw ≠ [])
    (hsim : ∀ d ∈ hw, d.devName ≠ "SimulatedDevice") :
    openedSpec (initialState hw) = hw.head hne ∧
    (openedSpec (initialState hw)).devName ≠ "SimulatedDevice" ∧
    (NIDAQThreadCreate hw).1.mNIDAQ.productName = (hw.head hne).productName := by
  cases hw with
  | nil => exact absurd rfl hne
  | cons a t =>
    have hspec : openedSpec (initialState (a :: t)) = a := by
      simp [openedSpec, initialState, scanForDevices, getDeviceFromIndex,
        findDevice, List.find?]
    refine ⟨hspec, ?_, ?_⟩
    · rw [hspec]
      exact hsim a (List.mem_cons_self a t)
    · show (openedSpec (initialState (a :: t))).productName = _
      rw [hspec]
      rfl

/-- Witness for C3: constructed against the single real device `devA`,
the module opens exactly `devA` and reports its product name. -/
theorem C3_witness :
    openedSpec (initialState [devA]) = devA ∧
    stA.mNIDAQ.productName = devA.productName := by
  have h := C3_opens_first_nonsimulated [devA] (by decide) (by decide)
  exact ⟨h.1, h.2.2⟩

theorem juceGet_last {α : Type} (xs : List α) (d : α) (h : xs ≠ []) :
    juceGet xs ((xs.length : Int) - 1) d = xs.getLast h := by
  have hlen : 0 < xs.length := List.length_pos.mpr h
  have hb : 0 ≤ (xs.length : Int) - 1 := by omega
  have hlt : ((xs.length : Int) - 1).toNat < xs.length := by omega
  have ht : ((xs.length : Int) - 1).toNat = xs.length - 1 := by omega
  unfold juceGet
  rw [dif_pos ⟨hb, hlt⟩, List.getLast_eq_getElem, List.get_eq_getElem]
  simp only [ht]

/-- Reduction of a successful `swapConnection` to the fields the claims
read: on success the new session is the one created on the swapped-to
device, the last buffer is replaced by a fresh one sized to that
device's analog input count, and the default rate/range are applied. -/
theorem swapConnection_success (s : NIDAQThreadState) (p : String)
    (h : getDeviceFromProductName s.dm p ≠ "") :
    (swapConnection s p).1.mNIDAQ.sampleRates = (swappedSpec s p).sampleRates ∧
    (swapConnection s p).1.mNIDAQ.aiVRanges = (swappedSpec s p).aiVRanges ∧
    (swapConnection s p).1.sampleRateIndex =
      ((swappedSpec s p).sampleRates.length : Int) - 1 ∧
    (swapConnection s p).1.mNIDAQ.samplerate =
      juceGet (swappedSpec s p).sampleRates
        (((swappedSpec s p).sampleRates.length : Int) - 1) 0 ∧
    (swapConnection s p).1.voltageRangeIndex =
      ((swappedSpec s p).aiVRanges.length : Int) - 1 ∧
    (swapConnection s p).1.mNIDAQ.voltageRange =
      juceGet (swappedSpec s p).aiVRanges
        (((swappedSpec s p).aiVRanges.length : Int) - 1) ⟨0, 0⟩ ∧
    (swapConnection s p).1.sourceBuffers =
      s.sourceBuffers.dropLast ++
        [⟨(swappedSpec s p).numAI, 10000, s.nextBufferId⟩] ∧
    (swapConnection s p).1.mNIDAQ.aiBuffer = some s.nextBufferId ∧
    (swapConnection s p).1.mNIDAQ.ai = (swappedSpec s p).numAI := by
  unfold swapConnection
  rw [if_pos h]
  exact ⟨rfl, rfl, rfl, rfl, rfl, rfl, rfl, rfl, rfl⟩

/-- C4: after `openConnection` and after every successful
`swapConnection`, the sample-rate index is the highest index of the
session's reported sample-rate table, the voltage-range index is the
highest index of its reported voltage-range table, and the active
`samplerate` / `voltageRange` are the entries at those indices (i.e. the
last table entries).  The opened/swapped-to device reports nonempty
tables. -/
theorem C4_default_rate_range (s : NIDAQThreadState) (p : String)
    (h1 : (openedSpec s).sampleRates ≠ [])
    (h2 : (openedSpec s).aiVRanges ≠ [])
    (h3 : getDeviceFromProductName s.dm p ≠ "")
    (h4 : (swappedSpec s p).sampleRates ≠ [])
    (h5 : (swappedSpec s p).aiVRanges ≠ []) :
    ((openConnection s).1.sampleRateIndex =
        ((openConnection s).1.mNIDAQ.sampleRates.length : Int) - 1 ∧
      (openConnection s).1.mNIDAQ.sampleRates.getLast? =
        some (openConnection s).1.mNIDAQ.samplerate ∧
      (openConnection s).1.voltageRangeIndex =
        ((openConnection s).1.mNIDAQ.aiVRanges.length : Int) - 1 ∧
      (openConnection s).1.mNIDAQ.aiVRanges.getLast? =
        some (openConnection s).1.mNIDAQ.voltageRange) ∧
    ((swapConnection s p).1.sampleRateIndex =
        ((swapConnection s p).1.mNIDAQ.sampleRates.length : Int) - 1 ∧
      (swapConnection s p).1.mNIDAQ.sampleRates.getLast? =
        some (swapConnection s p).1.mNIDAQ.samplerate ∧
      (swapConnection s p).1.voltageRangeIndex =
        ((swapConnection s p).1.mNIDAQ.aiVRanges.length : Int) - 1 ∧
      (swapConnection s p).1.mNIDAQ.aiVRanges.getLast? =
        some (swapConnection s p).1.mNIDAQ.voltageRange) := by
  obtain ⟨e1, e2, e3, e4, e5, e6, -, -, -⟩ := swapConnection_success s p h3
  refine ⟨⟨rfl, ?_, rfl, ?_⟩, ⟨?_, ?_, ?_, ?_⟩⟩
  · have er : (openConnection s).1.mNIDAQ.samplerate =
        juceGet (openedSpec s).sampleRates
          (((openedSpec s).sampleRates.length : Int) - 1) 0 := rfl
    have el : (openConnection s).1.mNIDAQ.sampleRates =
        (openedSpec s).sampleRates := rfl
    rw [el, er, juceGet_last _ _ h1, List.getLast?_eq_getLast _ h1]
  · have er : (openConnection s).1.mNIDAQ.voltageRange =
        juceGet (openedSpec s).aiVRanges
          (((openedSpec s).aiVRanges.length : Int) - 1) ⟨0, 0⟩ := rfl
    have el : (openConnection s).1.mNIDAQ.aiVRanges =
        (openedSpec s).aiVRanges := rfl
    rw [el, er, juceGet_last _ _ h2, List.getLast?_eq_getLast _ h2]
  · rw [e3, e1]
  · rw [e1, e4, juceGet_last _ _ h4, List.getLast?_eq_getLast _ h4]
  · rw [e5, e2]
  · rw [e2, e6, juceGet_last _ _ h5, List.getLast?_eq_getLast _ h5]

/-- Witness for C4: on the concrete state `stA` and an in-place swap to
the known product name "PCIe-6343", the selected indices are the last
indices of `devA`'s two-entry tables. -/
theorem C4_witness :
    (openConnection stA).1.sampleRateIndex =
      ((openConnection stA).1.mNIDAQ.sampleRates.length : Int) - 1 ∧
    (swapConnection stA "PCIe-6343").1.mNIDAQ.sampleRates.getLast? =
      some (swapConnection stA "PCIe-6343").1.mNIDAQ.samplerate := by
  have h := C4_default_rate_range stA "PCIe-6343" (by decide) (by decide)
    (by decide) (by decide) (by decide)
  exact ⟨h.1.1, h.2.2.1⟩

/-- C9: whenever the active device changes — `openConnection`, or a
successful `swapConnection` — a new fixed-capacity buffer is allocated
whose channel count is the new session's analog input count and whose
sample depth is the constant 10000, and the session's `aiBuffer` points
to that new buffer.  The allocated buffer is new: its identity differs
from every buffer existing beforehand (the hypothesis is the
bookkeeping invariant that hands out fresh identities). -/
theorem C9_buffer_reallocated (s : NIDAQThreadState) (p : String)
    (hfresh : ∀ b ∈ s.sourceBuffers, b.id < s.nextBufferId)
    (hswap : getDeviceFromProductName s.dm p ≠ "") :
    ((openConnection s).1.sourceBuffers =
        s.sourceBuffers ++
          [⟨(openConnection s).1.mNIDAQ.ai, 10000, s.nextBufferId⟩] ∧
      (openConnection s).1.mNIDAQ.aiBuffer = some s.nextBufferId ∧
      ∀ b ∈ s.sourceBuffers, b.id ≠ s.nextBufferId) ∧
    ((swapConnection s p).1.sourceBuffers =
        s.sourceBuffers.dropLast ++
          [⟨(swapConnection s p).1.mNIDAQ.ai, 10000, s.nextBufferId⟩] ∧
      (swapConnection s p).1.mNIDAQ.aiBuffer = some s.nextBufferId ∧
      ∀ b ∈ s.sourceBuffers, b.id ≠ s.nextBufferId) := by
  obtain ⟨-, -, -, -, -, -, e7, e8, e9⟩ := swapConnection_success s p hswap
  refine ⟨⟨rfl, rfl, ?_⟩, ⟨?_, e8, ?_⟩⟩
  · exact fun b hb => Nat.ne_of_lt (hfresh b hb)
  · rw [e7, e9]
  · exact fun b hb => Nat.ne_of_lt (hfresh b hb)

/-- Witness for C9: on the concrete state `stA`, re-opening and swapping
to the known product name both install a fresh 10000-deep buffer sized
to `devA`'s two analog inputs. -/
theorem C9_witness :
    (openConnection stA).1.sourceBuffers =
      stA.sourceBuffers ++
        [⟨(openConnection stA).1.mNIDAQ.ai, 10000, stA.nextBufferId⟩] ∧
    (swapConnection stA "PCIe-6343").1.mNIDAQ.aiBuffer =
      some stA.nextBufferId := by
  have h := C9_buffer_reallocated stA "PCIe-6343" (by decide) (by decide)
  exact ⟨h.1.1, h.2.2.1⟩

theorem juceGet_in {α : Type} (xs : List α) (i : Int) (d : α)
    (h0 : 0 ≤ i) (h : i.toNat < xs.length) :
    juceGet xs i d = xs.get ⟨i.toNat, h⟩ := by
  unfold juceGet
  rw [dif_pos ⟨h0, h⟩]

theorem juceSet_in {α : Type} (xs : List α) (i : Int) (v : α)
    (h0 : 0 ≤ i) (h : i.toNat < xs.length) :
    juceSet xs i v = xs.set i.toNat v := by
  unfold juceSet
  rw [if_pos h0, if_pos h]

/-- C6: for every index `i` valid for the analog family,
`toggleAIChannel i` negates the enabled flag of analog input `i`,
preserves every other analog flag, leaves the digital flags untouched,
and changes nothing else of the configuration (indices, active
rate/range, open session, device manager, buffers); and for every index
`i` valid for the digital family, `toggleDIChannel i` does the same with
the families exchanged.  Each family's part assumes only that family's
bound, so the two bounds may differ. -/
theorem C6_toggle_flips_one_flag (s : NIDAQThreadState) (i : Int)
    (h0 : 0 ≤ i) :
    (∀ hA : i.toNat < s.mNIDAQ.aiChannelEnabled.length,
      (toggleAIChannel s i).mNIDAQ.aiChannelEnabled[i.toNat]? =
        some (! s.mNIDAQ.aiChannelEnabled.get ⟨i.toNat, hA⟩) ∧
      (∀ j : Nat, j ≠ i.toNat →
        (toggleAIChannel s i).mNIDAQ.aiChannelEnabled[j]? =
          s.mNIDAQ.aiChannelEnabled[j]?) ∧
      (toggleAIChannel s i).mNIDAQ.diChannelEnabled =
        s.mNIDAQ.diChannelEnabled ∧
      ConfigUnchanged s (toggleAIChannel s i)) ∧
    (∀ hD : i.toNat < s.mNIDAQ.diChannelEnabled.length,
      (toggleDIChannel s i).mNIDAQ.diChannelEnabled[i.toNat]? =
        some (! s.mNIDAQ.diChannelEnabled.get ⟨i.toNat, hD⟩) ∧
      (∀ j : Nat, j ≠ i.toNat →
        (toggleDIChannel s i).mNIDAQ.diChannelEnabled[j]? =
          s.mNIDAQ.diChannelEnabled[j]?) ∧
      (toggleDIChannel s i).mNIDAQ.aiChannelEnabled =
        s.mNIDAQ.aiChannelEnabled ∧
      ConfigUnchanged s (toggleDIChannel s i)) := by
  constructor
  · intro hA
    have eA : (toggleAIChannel s i).mNIDAQ.aiChannelEnabled =
        s.mNIDAQ.aiChannelEnabled.set i.toNat
          (! s.mNIDAQ.aiChannelEnabled.get ⟨i.toNat, hA⟩) := by
      show juceSet s.mNIDAQ.aiChannelEnabled i
          (! juceGet s.mNIDAQ.aiChannelEnabled i false) = _
      rw [juceGet_in _ _ _ h0 hA, juceSet_in _ _ _ h0 hA]
    refine ⟨?_, ?_, rfl, ?_⟩
    · rw [eA]
      exact List.getElem?_set_self hA
    · intro j hj
      rw [eA]
      exact List.getElem?_set_ne (Ne.symm hj)
    · exact ⟨rfl, rfl, rfl, rfl, rfl, rfl, rfl, rfl, rfl, rfl, rfl, rfl, rfl⟩
  · intro hD
    have eD : (toggleDIChannel s i).mNIDAQ.diChannelEnabled =
        s.mNIDAQ.diChannelEnabled.set i.toNat
          (! s.mNIDAQ.diChannelEnabled.get ⟨i.toNat, hD⟩) := by
      show juceSet s.mNIDAQ.diChannelEnabled i
          (! juceGet s.mNIDAQ.diChannelEnabled i false) = _
      rw [juceGet_in _ _ _ h0 hD, juceSet_in _ _ _ h0 hD]
    refine ⟨?_, ?_, rfl, ?_⟩
    · rw [eD]
      exact List.getElem?_set_self hD
    · intro j hj
      rw [eD]
      exact List.getElem?_set_ne (Ne.symm hj)
    · exact ⟨rfl, rfl, rfl, rfl, rfl, rfl, rfl, rfl, rfl, rfl, rfl, rfl, rfl⟩

/-- Witness for C6: on the concrete state `stA` (two analog inputs,
three digital inputs), toggling analog input 0 flips exactly that flag,
and toggling digital input 2 — an index valid only for the digital
family — flips exactly that flag and leaves the rest of the
configuration intact. -/
theorem C6_witness :
    ((toggleAIChannel stA 0).mNIDAQ.aiChannelEnabled[(0 : Int).toNat]? =
      some (! stA.mNIDAQ.aiChannelEnabled.get ⟨(0 : Int).toNat, by decide⟩)) ∧
    ((toggleDIChannel stA 2).mNIDAQ.diChannelEnabled[(2 : Int).toNat]? =
      some (! stA.mNIDAQ.diChannelEnabled.get ⟨(2 : Int).toNat, by decide⟩)) ∧
    ConfigUnchanged stA (toggleDIChannel stA 2) := by
  have hA := (C6_toggle_flips_one_flag stA 0 (by decide)).1 (by decide)
  have hD := (C6_toggle_flips_one_flag stA 2 (by decide)).2 (by decide)
  exact ⟨hA.1, hD.1, hD.2.2.2⟩

theorem findDevice_mem (devs : List DeviceSpec) (name : String)
    (h : ∃ d ∈ devs, d.devName = name) : findDevice devs name ∈ devs := by
  unfold findDevice
  have hsome : (devs.find? (fun d => d.devName == name)).isSome :=
    List.find?_isSome.mpr (by simpa using h)
  obtain ⟨d0, hd0⟩ := Option.isSome_iff_exists.mp hsome
  rw [hd0]
  exact List.mem_of_find?_eq_some hd0

theorem openedSpec_mem (s : NIDAQThreadState) (hne : s.dm.devices ≠ []) :
    openedSpec s ∈ s.dm.devices := by
  unfold openedSpec
  apply findDevice_mem
  unfold getDeviceFromIndex
  cases hd : s.dm.devices with
  | nil => exact absurd hd hne
  | cons a t => exact ⟨a, List.mem_cons_self a t, by simp⟩

theorem swappedSpec_mem (s : NIDAQThreadState) (p : String)
    (h : getDeviceFromProductName s.dm p ≠ "") :
    swappedSpec s p ∈ s.dm.devices := by
  unfold swappedSpec
  apply findDevice_mem
  unfold getDeviceFromProductName at h ⊢
  cases hf : s.dm.devices.find? (fun d => d.productName == p) with
  | none =>
    rw [hf] at h
    exact absurd rfl h
  | some d0 => exact ⟨d0, List.mem_of_find?_eq_some hf, rfl⟩

theorem validIdx_open (s : NIDAQThreadState) (hwf : WFDevices s) :
    ValidIdx (openConnection s).1 := by
  obtain ⟨hne, hall⟩ := hwf
  obtain ⟨hsr, hvr⟩ := hall _ (openedSpec_mem s hne)
  have e1 : (openConnection s).1.sampleRateIndex =
      ((openedSpec s).sampleRates.length : Int) - 1 := rfl
  have e2 : (openConnection s).1.mNIDAQ.sampleRates =
      (openedSpec s).sampleRates := rfl
  have e3 : (openConnection s).1.voltageRangeIndex =
      ((openedSpec s).aiVRanges.length : Int) - 1 := rfl
  have e4 : (openConnection s).1.mNIDAQ.aiVRanges =
      (openedSpec s).aiVRanges := rfl
  have l1 : 0 < (openedSpec s).sampleRates.length := List.length_pos.mpr hsr
  have l2 : 0 < (openedSpec s).aiVRanges.length := List.length_pos.mpr hvr
  refine ⟨?_, ?_, ?_, ?_⟩
  · rw [e1]; omega
  · rw [e1, e2]; omega
  · rw [e3]; omega
  · rw [e3, e4]; omega

theorem validIdx_swap (s : NIDAQThreadState) (p : String)
    (hwf : WFDevices s) (hv : ValidIdx s) :
    ValidIdx (swapConnection s p).1 := by
  by_cases h : getDeviceFromProductName s.dm p = ""
  · have hfail : swapConnection s p = (s, 1) := by
      unfold swapConnection
      rw [if_neg (by simp [h])]
    rw [hfail]
    exact hv
  · obtain ⟨e1, e2, e3, -, e5, -, -, -, -⟩ := swapConnection_success s p h
    obtain ⟨hsr, hvr⟩ := hwf.2 _ (swappedSpec_mem s p h)
    have l1 : 0 < (swappedSpec s p).sampleRates.length := List.length_pos.mpr hsr
    have l2 : 0 < (swappedSpec s p).aiVRanges.length := List.length_pos.mpr hvr
    refine ⟨?_, ?_, ?_, ?_⟩
    · rw [e3]; omega
    · rw [e3, e1]; omega
    · rw [e5]; omega
    · rw [e5, e2]; omega

theorem validIdx_step (a b : NIDAQThreadState)
    (hwf : WFDevices a) (hv : ValidIdx a) (h : OpStep a b) : ValidIdx b := by
  cases h with
  | openConn => exact validIdx_open a hwf
  | swap p => exact validIdx_swap a p hwf hv
  | setSR i h0 h1 => exact ⟨h0, h1, hv.2.2.1, hv.2.2.2⟩
  | setVR i h0 h1 => exact ⟨hv.1, hv.2.1, h0, h1⟩
  | togAI i => exact hv
  | togDI i => exact hv
  | settings => exact hv
  | start =>
    rcases hv with ⟨a1, a2, a3, a4⟩
    unfold startAcquisition startThread
    split
    · exact ⟨a1, a2, a3, a4⟩
    · exact ⟨a1, a2, a3, a4⟩
  | stop =>
    rcases hv with ⟨a1, a2, a3, a4⟩
    unfold stopAcquisition
    split
    · exact ⟨a1, a2, a3, a4⟩
    · exact ⟨a1, a2, a3, a4⟩

theorem step_dm (a b : NIDAQThreadState) (h : OpStep a b) : b.dm = a.dm := by
  cases h with
  | swap p =>
    show (swapConnection a p).1.dm = a.dm
    unfold swapConnection
    split
    · rfl
    · rfl
  | stop =>
    show (stopAcquisition a).1.dm = a.dm
    unfold stopAcquisition
    split
    · rfl
    · rfl
  | openConn => rfl
  | setSR i h0 h1 => rfl
  | setVR i h0 h1 => rfl
  | togAI i => rfl
  | togDI i => rfl
  | settings => rfl
  | start => rfl

theorem reach_dm (a b : NIDAQThreadState)
    (h : Relation.ReflTransGen OpStep a b) : b.dm = a.dm := by
  induction h with
  | refl => rfl
  | tail h1 h2 ih => rw [step_dm _ _ h2, ih]

/-- C5 (amended): starting from any state whose rate/range indices are
valid and whose device manager enumerates at least one device, all with
nonempty reported tables, every sequence of module operations — with
`setSampleRate` / `setVoltageRange` restricted to in-range arguments, as
in the editor's calls — preserves the validity of both indices. -/
theorem C5_valid_indices_amended (s t : NIDAQThreadState)
    (hwf : WFDevices s) (hv : ValidIdx s)
    (hr : Relation.ReflTransGen OpStep s t) : ValidIdx t := by
  induction hr with
  | refl => exact hv
  | tail h1 h2 ih =>
    refine validIdx_step _ _ ?_ ih h2
    have hdm := reach_dm _ _ h1
    unfold WFDevices at hwf ⊢
    rw [hdm]
    exact hwf

/-- Witness for C5: on the constructed state `stA`, selecting the
in-range sample-rate index 0 keeps both indices valid. -/
theorem C5_witness : ValidIdx (setSampleRate stA 0) :=
  C5_valid_indices_amended stA (setSampleRate stA 0)
    ⟨by decide, by decide⟩
    ⟨by decide, by decide, by decide, by decide⟩
    (Relation.ReflTransGen.single (OpStep.setSR stA 0 (by decide) (by decide)))

/-- Counterexample for C5 as stated: `setSampleRate` performs no bounds
check, so the module operation `setSampleRate 5` on the constructed
state `stA` (whose device reports a two-entry sample-rate table) leaves
`sampleRateIndex = 5`, which is not a valid index into the table. -/
theorem C5_counterexample : ¬ ValidIdx (setSampleRate stA 5) := by
  intro hv
  exact absurd hv.2.1 (by decide)

/-- C1 (amended): every call to `updateSettings` rebuilds the
continuous-channel collection with exactly one continuous channel per
analog input of the current device — enabled or not — each with
`bitVolts` equal to the active voltage range's maximum divided by 32767,
and rebuilds the event-channel collection with exactly one event channel
whose line count aggregates all digital input lines.  (The source-stream
array holds at most one stream: it starts empty and `updateSettings`
only ever adds the first.) -/
theorem C1_settings_amended (s : NIDAQThreadState)
    (h : s.sourceStreamsSize ≤ 1) :
    (updateSettings s).2.1.length = s.mNIDAQ.aiChannelEnabled.length ∧
    (∀ c ∈ (updateSettings s).2.1,
      c.bitVolts = s.mNIDAQ.voltageRange.vmax / 32767) ∧
    (updateSettings s).2.2.length = 1 ∧
    (∀ e ∈ (updateSettings s).2.2,
      e.numLines = s.mNIDAQ.diChannelEnabled.length) := by
  have hn : (if s.sourceStreamsSize = 0 then 1 else s.sourceStreamsSize) = 1 := by
    split <;> omega
  refine ⟨?_, ?_, ?_, ?_⟩
  · simp [updateSettings, hn]
  · intro c hc
    simp only [updateSettings, hn] at hc
    simp only [List.replicate_one, List.flatten_cons, List.flatten_nil,
      List.append_nil, List.mem_map] at hc
    obtain ⟨ch, -, rfl⟩ := hc
    rfl
  · simp [updateSettings, hn]
  · intro e he
    simp only [updateSettings, hn] at he
    simp only [List.replicate_one, List.mem_singleton] at he
    rw [he]

/-- Witness for C1 (amended): on the freshly constructed state `stA`
(two analog inputs, three digital lines), the rebuilt collections hold
two continuous channels and one event channel aggregating three
lines. -/
theorem C1_witness :
    (updateSettings stA).2.1.length = stA.mNIDAQ.aiChannelEnabled.length ∧
    (updateSettings stA).2.2.length = 1 := by
  have h := C1_settings_amended stA (by decide)
  exact ⟨h.1, h.2.2.1⟩

/-- Counterexample for C1 as stated: after toggling analog input 0 off,
the state has exactly one enabled analog input, yet `updateSettings`
rebuilds the continuous-channel collection with two channels — the loop
runs over all analog inputs and never consults the enabled flags. -/
theorem C1_counterexample :
    (updateSettings (toggleAIChannel stA 0)).2.1.length = 2 ∧
    ((toggleAIChannel stA 0).mNIDAQ.aiChannelEnabled.filter id).length = 1 := by
  exact ⟨by decide, by decide⟩

end NIDAQ
